import Mathlib

/-!
Verification development for the SEC-EDGAR acquisition-and-ingestion pipeline
(FinLens).  Python sources are shallowly embedded: pure parsing and
decision logic becomes executable Lean functions, HTTP and filesystem effects
become explicit outcome values and state passing, and exceptions become
`Except`/`Option` results.  Machine text is modelled over `List Char` /
`String`; byte strings over `List Nat`; `\d` in the source regexes is modelled
as the ASCII digits that occur in EDGAR paths.
-/

namespace FinLens

/-- A calendar date as produced by `datetime.strptime(..., '%Y-%m-%d').date()`. -/
structure PyDate where
  year : Nat
  month : Nat
  day : Nat
deriving DecidableEq, Repr

/-- A filing row as assembled by the ingestion paths and stored in the
`filings` table (`src/database/models.py`, class `Filing`; natural key is
`accession_number`, declared `unique`). -/
structure FilingRec where
  cik : String
  form_type : String
  filing_date : PyDate
  accession_number : String
  primary_document_filename : String
deriving DecidableEq, Repr

/-- Does the table already hold a row with this accession number?  This is the
key-collision test of the `unique` index on `filings.accession_number`
(`src/database/models.py`). -/
def hasAccession (table : List FilingRec) (a : String) : Bool :=
  table.any (fun x => x.accession_number == a)

/-- One row of MySQL `INSERT IGNORE` against the `filings` table: a row whose
accession number collides with an existing row is silently skipped, otherwise
it is appended.  This is the per-row semantics of the batched
`mysql_insert(db.Filing).values(batch).prefix_with("IGNORE")` statement in
`src/extraction/sec_edgar_pipeline.py` (filing insert batches). -/
def insertIgnoreOne (table : List FilingRec) (r : FilingRec) : List FilingRec :=
  if hasAccession table r.accession_number then table else table ++ [r]

/-- `FilingStore.insertIgnore`: insert a batch of filing records with
insert-or-ignore semantics, row by row in batch order. -/
def insertIgnore (table : List FilingRec) (recs : List FilingRec) : List FilingRec :=
  recs.foldl insertIgnoreOne table

/-- The stored accession numbers, in row order. -/
def accessions (table : List FilingRec) : List String :=
  table.map (fun x => x.accession_number)

theorem hasAccession_iff_mem_accessions (t : List FilingRec) (a : String) :
    hasAccession t a = true ↔ a ∈ accessions t := by
  constructor
  · intro h
    rcases List.any_eq_true.mp h with ⟨x, hx, hbeq⟩
    exact List.mem_map.mpr ⟨x, hx, by simpa using hbeq⟩
  · intro h
    rcases List.mem_map.mp h with ⟨x, hx, hfa⟩
    exact List.any_eq_true.mpr ⟨x, hx, by simpa using hfa⟩

theorem insertIgnoreOne_of_hasAccession (t : List FilingRec) (r : FilingRec)
    (h : hasAccession t r.accession_number = true) : insertIgnoreOne t r = t := by
  simp [insertIgnoreOne, h]

theorem hasAccession_insertIgnoreOne_mono (t : List FilingRec) (r : FilingRec) (a : String)
    (h : hasAccession t a = true) : hasAccession (insertIgnoreOne t r) a = true := by
  unfold insertIgnoreOne
  split
  · exact h
  · simp [hasAccession, List.any_append] at h ⊢
    exact Or.inl h

theorem hasAccession_insertIgnoreOne_self (t : List FilingRec) (r : FilingRec) :
    hasAccession (insertIgnoreOne t r) r.accession_number = true := by
  unfold insertIgnoreOne
  split
  · assumption
  · simp [hasAccession, List.any_append]

theorem hasAccession_insertIgnore_mono (recs : List FilingRec) (t : List FilingRec) (a : String)
    (h : hasAccession t a = true) : hasAccession (insertIgnore t recs) a = true := by
  induction recs generalizing t with
  | nil => exact h
  | cons r rs ih =>
      exact ih (insertIgnoreOne t r) (hasAccession_insertIgnoreOne_mono t r a h)

theorem hasAccession_insertIgnore_of_mem (recs : List FilingRec) (t : List FilingRec)
    (r : FilingRec) (h : r ∈ recs) :
    hasAccession (insertIgnore t recs) r.accession_number = true := by
  induction recs generalizing t with
  | nil => cases h
  | cons x xs ih =>
      rcases List.mem_cons.mp h with rfl | hmem
      · exact hasAccession_insertIgnore_mono xs (insertIgnoreOne t r) _
          (hasAccession_insertIgnoreOne_self t r)
      · exact ih (insertIgnoreOne t x) hmem

theorem insertIgnore_of_all_present (recs : List FilingRec) (t : List FilingRec)
    (h : ∀ r ∈ recs, hasAccession t r.accession_number = true) :
    insertIgnore t recs = t := by
  induction recs generalizing t with
  | nil => rfl
  | cons x xs ih =>
      have hx : insertIgnoreOne t x = t :=
        insertIgnoreOne_of_hasAccession t x (h x (List.mem_cons_self x xs))
      show insertIgnore (insertIgnoreOne t x) xs = t
      rw [hx]
      exact ih t (fun r hr => h r (List.mem_cons_of_mem x hr))

theorem accessions_nodup_insertIgnoreOne (t : List FilingRec) (r : FilingRec)
    (h : (accessions t).Nodup) : (accessions (insertIgnoreOne t r)).Nodup := by
  unfold insertIgnoreOne
  split
  · exact h
  · next hno =>
      have : r.accession_number ∉ accessions t := by
        intro hmem
        exact hno ((hasAccession_iff_mem_accessions t _).mpr hmem)
      simpa [accessions, List.nodup_append] using And.intro h this

theorem accessions_nodup_insertIgnore (recs : List FilingRec) (t : List FilingRec)
    (h : (accessions t).Nodup) : (accessions (insertIgnore t recs)).Nodup := by
  induction recs generalizing t with
  | nil => exact h
  | cons x xs ih => exact ih (insertIgnoreOne t x) (accessions_nodup_insertIgnoreOne t x h)

/-- C1.  Filing storage is insert-ignore and idempotent: a record whose
accession number already exists in the store is skipped without error and
without touching the existing row; re-running the same ingest over the same
records leaves the store exactly as after the first run; and starting from a
store with pairwise-distinct accession numbers, no ingest ever produces two
rows sharing an accession number. -/
theorem C1_filing_store_insert_ignore_idempotent :
    (∀ (t : List FilingRec) (r : FilingRec),
        hasAccession t r.accession_number = true → insertIgnoreOne t r = t) ∧
    (∀ (t : List FilingRec) (recs : List FilingRec),
        insertIgnore (insertIgnore t recs) recs = insertIgnore t recs) ∧
    (∀ (t : List FilingRec) (recs : List FilingRec),
        (accessions t).Nodup → (accessions (insertIgnore t recs)).Nodup) := by
  refine ⟨insertIgnoreOne_of_hasAccession, ?_, ?_⟩
  · intro t recs
    exact insertIgnore_of_all_present recs (insertIgnore t recs)
      (fun r hr => hasAccession_insertIgnore_of_mem recs t r hr)
  · intro t recs h
    exact accessions_nodup_insertIgnore recs t h

/-- A concrete filing record used by closed witnesses. -/
def sampleFiling : FilingRec :=
  { cik := "0000320193"
    form_type := "10-K"
    filing_date := ⟨2024, 1, 2⟩
    accession_number := "0000320193-24-000123"
    primary_document_filename := "aapl-20231230.htm" }

/-- A second concrete filing record sharing `sampleFiling`'s accession number
but differing elsewhere, used to check that a duplicate never overwrites. -/
def sampleFilingDup : FilingRec :=
  { sampleFiling with form_type := "10-K/A", primary_document_filename := "other.htm" }

/-- Closed witness for C1 at concrete inputs. -/
theorem C1_filing_store_insert_ignore_idempotent_witness :
    insertIgnoreOne [sampleFiling] sampleFilingDup = [sampleFiling] ∧
    insertIgnore (insertIgnore [] [sampleFiling, sampleFilingDup]) [sampleFiling, sampleFilingDup]
      = insertIgnore [] [sampleFiling, sampleFilingDup] ∧
    (accessions (insertIgnore [] [sampleFiling, sampleFilingDup])).Nodup := by
  refine ⟨?_, ?_, ?_⟩
  · exact C1_filing_store_insert_ignore_idempotent.1 [sampleFiling] sampleFilingDup (by decide)
  · exact C1_filing_store_insert_ignore_idempotent.2.1 [] [sampleFiling, sampleFilingDup]
  · exact C1_filing_store_insert_ignore_idempotent.2.2 [] [sampleFiling, sampleFilingDup] (by decide)

/-! ### Accession-number recovery (`IndexParser._extract_accession_number`,
`src/phase1_extraction/parsers/index.py`) -/

/-- Consume exactly `n` decimal digits from the front of `cs`, returning the
digits and the remainder, or `none` if a non-digit (or end of input) comes
first.  This is `\d` repeated `n` times anchored at one search position. -/
def splitDigits : Nat → List Char → Option (List Char × List Char)
  | 0, cs => some ([], cs)
  | _ + 1, [] => none
  | n + 1, c :: cs =>
      if c.isDigit then (splitDigits n cs).map (fun p => (c :: p.1, p.2)) else none

/-- Leftmost-position regex search: try the fixed-shape matcher `f` at every
suffix, left to right, as `re.search` does for a backtracking-free pattern. -/
def searchFirst (f : List Char → Option (List Char)) : List Char → Option (List Char)
  | [] => f []
  | c :: rest => (f (c :: rest)).orElse (fun _ => searchFirst f rest)

/-- Match `\d{10}-\d{2}-\d{6}` anchored at the current position, returning the
matched 20 characters. -/
def matchAccHyphenAt (cs : List Char) : Option (List Char) :=
  match splitDigits 10 cs with
  | some (d1, '-' :: r1) =>
      match splitDigits 2 r1 with
      | some (d2, '-' :: r2) =>
          match splitDigits 6 r2 with
          | some (d3, _) => some (d1 ++ '-' :: d2 ++ '-' :: d3)
          | none => none
      | _ => none
  | _ => none

/-- Match `\d{n}` anchored at the current position. -/
def matchDigitRun (n : Nat) (cs : List Char) : Option (List Char) :=
  (splitDigits n cs).map (fun p => p.1)

/-- Reformat a run of (at least 18) digits into the canonical hyphenated
accession shape `d[:10]-d[10:12]-d[12:18]`. -/
def formatAccession (d : List Char) : String :=
  String.mk (d.take 10 ++ '-' :: (d.drop 10).take 2 ++ '-' :: (d.drop 12).take 6)

/-- `IndexParser._extract_accession_number` over the path's characters: try,
in order, (a) the hyphenated `\d{10}-\d{2}-\d{6}` form anywhere in the path,
(b) an 18-digit run reformatted into the hyphenated shape, (c) a 20-digit run
truncated to its first 18 digits; `none` when no pattern matches. -/
def extractAccessionNumberCh (cs : List Char) : Option String :=
  match searchFirst matchAccHyphenAt cs with
  | some m => some (String.mk m)
  | none =>
      match searchFirst (matchDigitRun 18) cs with
      | some d => some (formatAccession d)
      | none =>
          match searchFirst (matchDigitRun 20) cs with
          | some d => some (formatAccession (d.take 18))
          | none => none

/-- `IndexParser._extract_accession_number` on a path string. -/
def extractAccessionNumber (path : String) : Option String :=
  extractAccessionNumberCh path.data

/-! ### Master index parsing (`IndexParser.parse`,
`src/phase1_extraction/parsers/index.py`) -/

/-- `input_source.replace('\r\n', '\n').replace('\r', '\n')`. -/
def normNewlines : List Char → List Char
  | [] => []
  | '\r' :: '\n' :: rest => '\n' :: normNewlines rest
  | '\r' :: rest => '\n' :: normNewlines rest
  | c :: rest => c :: normNewlines rest

/-- Split a character list on a separator character, Python `str.split(sep)`
style: always at least one (possibly empty) field. -/
def splitOnCh (sep : Char) : List Char → List (List Char)
  | [] => [[]]
  | c :: cs =>
      if c = sep then [] :: splitOnCh sep cs
      else
        match splitOnCh sep cs with
        | [] => [[c]]
        | x :: xs => (c :: x) :: xs

/-- ASCII whitespace stripped by `str.strip()`. -/
def isSpaceCh (c : Char) : Bool :=
  c == ' ' || c == '\t' || c == '\n' || c == '\r' || c == '\x0b' || c == '\x0c'

/-- `str.strip()`: drop leading and trailing whitespace. -/
def trimCh (cs : List Char) : List Char :=
  ((cs.dropWhile isSpaceCh).reverse.dropWhile isSpaceCh).reverse

/-- `str.isdigit()` for the CIK field: non-empty and all digits. -/
def pyIsDigit (cs : List Char) : Bool :=
  !cs.isEmpty && cs.all Char.isDigit

/-- Number of days in a month, with the Gregorian leap rule, as validated by
`datetime.date`. -/
def daysInMonth (y m : Nat) : Nat :=
  if m = 2 then
    if y % 4 = 0 ∧ (y % 100 ≠ 0 ∨ y % 400 = 0) then 29 else 28
  else if m = 4 ∨ m = 6 ∨ m = 9 ∨ m = 11 then 30
  else 31

/-- Decimal value of a digit string. -/
def digitsToNat (ds : List Char) : Nat :=
  ds.foldl (fun acc c => acc * 10 + (c.toNat - '0'.toNat)) 0

/-- `datetime.strptime(s, '%Y-%m-%d').date()`: exactly four year digits
(CPython's `%Y`), one or two month and day digits separated by literal
hyphens, nothing left over, and the values must form a real calendar date;
`none` models `ValueError`. -/
def parseDateIso (cs : List Char) : Option PyDate :=
  match splitOnCh '-' cs with
  | [ys, ms, ds] =>
      if ys.all Char.isDigit ∧ ys.length = 4 ∧
         ms.all Char.isDigit ∧ 1 ≤ ms.length ∧ ms.length ≤ 2 ∧
         ds.all Char.isDigit ∧ 1 ≤ ds.length ∧ ds.length ≤ 2 then
        let y := digitsToNat ys
        let m := digitsToNat ms
        let d := digitsToNat ds
        if 1 ≤ m ∧ m ≤ 12 ∧ 1 ≤ d ∧ d ≤ daysInMonth y m ∧ 1 ≤ y then
          some ⟨y, m, d⟩
        else none
      else none
  | _ => none

/-- The two recognised header spellings of a master index file. -/
def headerSpellingA : String := "CIK|Company Name|Form Type|Date Filed|Filename"

/-- Alternative header spelling. -/
def headerSpellingB : String := "CIK|Company Name|Form Type|Date Filed|File Name"

/-- Running state of `IndexParser.parse`'s line loop. -/
structure IdxState where
  headerFound : Bool
  headerSkipped : Bool
  filings : List FilingRec
  errors : Nat
deriving DecidableEq, Repr

/-- Initial loop state. -/
def idxInit : IdxState := ⟨false, false, [], 0⟩

/-- Is this (stripped) line one of the two known header lines? -/
def isHeaderLine (line : List Char) : Bool :=
  line == headerSpellingA.data || line == headerSpellingB.data

/-- Does this (stripped) line start with the dashed separator `---`? -/
def isDashLine (line : List Char) : Bool :=
  List.isPrefixOf ['-', '-', '-'] line

/-- Process the data fields of one well-split post-header line, mirroring the
body of the `try` block: non-numeric CIK, form-type filter, date parse,
accession extraction, then record assembly. -/
def idxProcessFields (targetForms : Option (List String)) (st : IdxState)
    (p0 p2 p3 p4 : List Char) : IdxState :=
  let cik := trimCh p0
  let formType := (trimCh p2).map Char.toUpper
  let dateStr := trimCh p3
  let path := trimCh p4
  if !pyIsDigit cik then { st with errors := st.errors + 1 }
  else if targetForms.elim false (fun tf => !tf.contains (String.mk formType)) then st
  else
    match parseDateIso dateStr with
    | none => { st with errors := st.errors + 1 }
    | some d =>
        match extractAccessionNumberCh path with
        | none => { st with errors := st.errors + 1 }
        | some acc =>
            let primary := (splitOnCh '/' path).getLastD path
            { st with filings := st.filings ++
                [⟨String.mk cik, String.mk formType, d, acc, String.mk primary⟩] }

/-- One iteration of `IndexParser.parse`'s loop over stripped lines: header
skipping, blank-line skipping, the five-field split, and field processing. -/
def idxProcessLine (targetForms : Option (List String)) (st : IdxState)
    (rawLine : List Char) : IdxState :=
  let line := trimCh rawLine
  if !st.headerSkipped then
    if isHeaderLine line then { st with headerFound := true }
    else if st.headerFound && isDashLine line then { st with headerSkipped := true }
    else st
  else if line.isEmpty then st
  else
    match splitOnCh '|' line with
    | [p0, _p1, p2, p3, p4] => idxProcessFields targetForms st p0 p2 p3 p4
    | _ => { st with errors := st.errors + 1 }

/-- `IndexParser.parse`: normalize newlines, fold the line loop, and raise
`IndexParsingError` (modelled as `Except.error ()`) exactly when the
header/separator pair was never found.  The returned `Nat` is the internal
`errors_in_source` counter. -/
def indexParse (targetForms : Option (List String)) (input : String) :
    Except Unit (List FilingRec × Nat) :=
  let lines := splitOnCh '\n' (normNewlines input.data)
  let st := lines.foldl (idxProcessLine targetForms) idxInit
  if st.headerSkipped then .ok (st.filings, st.errors) else .error ()

deriving instance DecidableEq for Except

/-- C2.  The accession-number extraction tries the hyphenated form, then an
18-digit run, then a 20-digit run, in that order; the three spec paths all
yield `0000320193-24-000123`; and a row whose path matches no pattern is
dropped: at the parser level the line adds no filing and is counted as an
error, as the concrete parse at the end shows. -/
theorem C2_accession_extraction_fallbacks :
    extractAccessionNumber "edgar/data/320193/0000320193-24-000123.txt"
      = some "0000320193-24-000123" ∧
    extractAccessionNumber "edgar/data/320193/000032019324000123.txt"
      = some "0000320193-24-000123" ∧
    extractAccessionNumber "edgar/data/320193/00003201932400012399.txt"
      = some "0000320193-24-000123" ∧
    (∀ path : String,
      searchFirst matchAccHyphenAt path.data = none →
      searchFirst (matchDigitRun 18) path.data = none →
      searchFirst (matchDigitRun 20) path.data = none →
      extractAccessionNumber path = none) ∧
    indexParse none
        (headerSpellingA ++ "\n---\n320193|Apple Inc.|10-K|2024-01-02|edgar/data/320193/no-acc-here.txt\n")
      = .ok ([], 1) := by
  refine ⟨by decide, by decide, by decide, ?_, by decide⟩
  intro path h1 h2 h3
  simp [extractAccessionNumber, extractAccessionNumberCh, h1, h2, h3]

/-- Closed witness for C2's universally quantified conjunct at a concrete
pattern-free path. -/
theorem C2_accession_extraction_fallbacks_witness :
    extractAccessionNumber "edgar/data/320193/no-acc-here.txt" = none :=
  C2_accession_extraction_fallbacks.2.2.2.1 "edgar/data/320193/no-acc-here.txt"
    (by decide) (by decide) (by decide)

/-! ### C8 infrastructure: the header-flag state machine and row-error counting -/

/-- The header-flag component of the parse loop in isolation: returns whether
the header line followed (not necessarily immediately) by a dashed separator
line is found, starting from header-seen flag `found`. -/
def headerScan (found : Bool) : List (List Char) → Bool
  | [] => false
  | l :: ls =>
      let line := trimCh l
      if isHeaderLine line then headerScan true ls
      else if found && isDashLine line then true
      else headerScan found ls

/-- A post-header non-blank line that does not split on `|` into exactly five
fields. -/
def isMalformedDataLine (l : List Char) : Bool :=
  !(trimCh l).isEmpty && !((splitOnCh '|' (trimCh l)).length == 5)

/-- Number of malformed data lines. -/
def malformedLineCount (ls : List (List Char)) : Nat :=
  (ls.filter isMalformedDataLine).length

/-- A non-blank line that splits on `|` into exactly five fields. -/
def isWellFormedDataLine (l : List Char) : Bool :=
  !(trimCh l).isEmpty && ((splitOnCh '|' (trimCh l)).length == 5)

/-- Number of five-field data lines. -/
def wellFormedLineCount (ls : List (List Char)) : Nat :=
  (ls.filter isWellFormedDataLine).length

theorem isHeaderLine_not_dash (l : List Char) (h : isHeaderLine l = true) :
    isDashLine l = false := by
  rcases Bool.or_eq_true _ _ |>.mp h with h1 | h1
  · rw [show l = headerSpellingA.data from by simpa using h1]; decide
  · rw [show l = headerSpellingB.data from by simpa using h1]; decide

theorem headerScan_true_iff (ls : List (List Char)) :
    headerScan true ls = true ↔ ∃ j, isDashLine (trimCh (ls.getD j [])) = true := by
  induction ls with
  | nil =>
      simp only [headerScan]
      constructor
      · intro h
        exact absurd h (by decide)
      · rintro ⟨j, hj⟩
        rw [List.getD_nil] at hj
        exact absurd hj (by decide)
  | cons l ls ih =>
      by_cases hh : isHeaderLine (trimCh l) = true
      · have hd := isHeaderLine_not_dash _ hh
        rw [show headerScan true (l :: ls) = headerScan true ls from by
          simp [headerScan, hh]]
        rw [ih]
        constructor
        · rintro ⟨j, hj⟩; exact ⟨j + 1, by simpa using hj⟩
        · rintro ⟨j, hj⟩
          match j with
          | 0 => simp [hd] at hj
          | j + 1 => exact ⟨j, by simpa using hj⟩
      · by_cases hd : isDashLine (trimCh l) = true
        · rw [show headerScan true (l :: ls) = true from by simp [headerScan, hh, hd]]
          simp only [true_iff]
          exact ⟨0, by simpa using hd⟩
        · rw [show headerScan true (l :: ls) = headerScan true ls from by
            simp [headerScan, hh, hd]]
          rw [ih]
          constructor
          · rintro ⟨j, hj⟩; exact ⟨j + 1, by simpa using hj⟩
          · rintro ⟨j, hj⟩
            match j with
            | 0 => simp [hd] at hj
            | j + 1 => exact ⟨j, by simpa using hj⟩

theorem headerScan_false_iff (ls : List (List Char)) :
    headerScan false ls = true ↔
      ∃ i j, i < j ∧ isHeaderLine (trimCh (ls.getD i [])) = true ∧
        isDashLine (trimCh (ls.getD j [])) = true := by
  induction ls with
  | nil =>
      simp only [headerScan]
      constructor
      · intro h
        exact absurd h (by decide)
      · rintro ⟨i, j, _, _, hj⟩
        rw [List.getD_nil] at hj
        exact absurd hj (by decide)
  | cons l ls ih =>
      by_cases hh : isHeaderLine (trimCh l) = true
      · have hd := isHeaderLine_not_dash _ hh
        rw [show headerScan false (l :: ls) = headerScan true ls from by
          simp [headerScan, hh]]
        rw [headerScan_true_iff]
        constructor
        · rintro ⟨j, hj⟩
          exact ⟨0, j + 1, Nat.succ_pos j, by simpa using hh, by simpa using hj⟩
        · rintro ⟨i, j, hij, _, hj⟩
          match j with
          | 0 => simp [hd] at hj
          | j + 1 => exact ⟨j, by simpa using hj⟩
      · rw [show headerScan false (l :: ls) = headerScan false ls from by
          simp [headerScan, hh]]
        rw [ih]
        constructor
        · rintro ⟨i, j, hij, hi, hj⟩
          exact ⟨i + 1, j + 1, by omega, by simpa using hi, by simpa using hj⟩
        · rintro ⟨i, j, hij, hi, hj⟩
          match i, j with
          | 0, _ => simp [hh] at hi
          | i + 1, 0 => omega
          | i + 1, j + 1 =>
              exact ⟨i, j, by omega, by simpa using hi, by simpa using hj⟩

theorem idxProcessFields_state (tf : Option (List String)) (st : IdxState)
    (p0 p2 p3 p4 : List Char) :
    (idxProcessFields tf st p0 p2 p3 p4).headerSkipped = st.headerSkipped ∧
    st.errors ≤ (idxProcessFields tf st p0 p2 p3 p4).errors ∧
    (idxProcessFields tf st p0 p2 p3 p4).filings.length ≤ st.filings.length + 1 := by
  unfold idxProcessFields
  simp only []
  split
  · simp
  · split
    · simp
    · split
      · simp
      · split
        · simp
        · simp

theorem idxProcessLine_skipped (tf : Option (List String)) (st : IdxState)
    (l : List Char) (h : st.headerSkipped = true) :
    (idxProcessLine tf st l).headerSkipped = true := by
  unfold idxProcessLine
  rw [h]
  simp only [Bool.not_true, Bool.false_eq_true, if_false]
  split
  · exact h
  · split
    · rw [idxProcessFields_state tf st _ _ _ _ |>.1]; exact h
    · rfl

theorem foldl_idxProcessLine_skipped (tf : Option (List String))
    (ls : List (List Char)) (st : IdxState) (h : st.headerSkipped = true) :
    (ls.foldl (idxProcessLine tf) st).headerSkipped = true := by
  induction ls generalizing st with
  | nil => exact h
  | cons l ls ih => exact ih _ (idxProcessLine_skipped tf st l h)

theorem idxProcessLine_header_phase (tf : Option (List String)) (st : IdxState)
    (l : List Char) (h : st.headerSkipped = false) :
    idxProcessLine tf st l =
      (if isHeaderLine (trimCh l) then { st with headerFound := true }
       else if st.headerFound && isDashLine (trimCh l) then { st with headerSkipped := true }
       else st) := by
  unfold idxProcessLine
  rw [h]
  simp only [Bool.not_false, if_true]

theorem foldl_idxProcessLine_headerScan (tf : Option (List String))
    (ls : List (List Char)) (st : IdxState) (h : st.headerSkipped = false) :
    (ls.foldl (idxProcessLine tf) st).headerSkipped = headerScan st.headerFound ls := by
  induction ls generalizing st with
  | nil => simpa [headerScan] using h
  | cons l ls ih =>
      rw [List.foldl_cons, idxProcessLine_header_phase tf st l h]
      by_cases hh : isHeaderLine (trimCh l) = true
      · rw [if_pos hh, ih { st with headerFound := true } (by simp [h])]
        simp [headerScan, hh]
      · rw [if_neg hh]
        by_cases hd : (st.headerFound && isDashLine (trimCh l)) = true
        · rw [if_pos hd, foldl_idxProcessLine_skipped tf ls _ rfl]
          simp [headerScan, hh, hd]
        · rw [if_neg hd, ih st h]
          simp [headerScan, hh, hd]

theorem indexParse_error_iff (tf : Option (List String)) (input : String) :
    indexParse tf input = .error () ↔
      headerScan false (splitOnCh '\n' (normNewlines input.data)) = false := by
  have hfold :
      ((splitOnCh '\n' (normNewlines input.data)).foldl (idxProcessLine tf) idxInit).headerSkipped
        = headerScan false (splitOnCh '\n' (normNewlines input.data)) := by
    rw [foldl_idxProcessLine_headerScan tf _ idxInit rfl]
    rfl
  unfold indexParse
  simp only []
  rw [hfold]
  cases hsc : headerScan false (splitOnCh '\n' (normNewlines input.data)) with
  | false => simp
  | true => simp

theorem malformedLineCount_cons (l : List Char) (ls : List (List Char)) :
    malformedLineCount (l :: ls) =
      (if isMalformedDataLine l = true then 1 else 0) + malformedLineCount ls := by
  simp only [malformedLineCount, List.filter_cons]
  split
  · simp [Nat.add_comm]
  · simp

theorem wellFormedLineCount_cons (l : List Char) (ls : List (List Char)) :
    wellFormedLineCount (l :: ls) =
      (if isWellFormedDataLine l = true then 1 else 0) + wellFormedLineCount ls := by
  simp only [wellFormedLineCount, List.filter_cons]
  split
  · simp [Nat.add_comm]
  · simp

theorem idxProcessLine_data_shape (tf : Option (List String)) (st : IdxState)
    (l : List Char) (h : st.headerSkipped = true) :
    st.errors ≤ (idxProcessLine tf st l).errors ∧
    (isMalformedDataLine l = true →
      (idxProcessLine tf st l).errors = st.errors + 1) ∧
    (idxProcessLine tf st l).filings.length ≤
      st.filings.length + (if isWellFormedDataLine l = true then 1 else 0) := by
  have hb : ((trimCh l).isEmpty = true) ∨ ((trimCh l).isEmpty = false) :=
    by cases (trimCh l).isEmpty <;> simp
  unfold idxProcessLine
  rw [h]
  simp only [Bool.not_true, Bool.false_eq_true, if_false]
  rcases hb with hblank | hblank
  · rw [if_pos hblank]
    refine ⟨Nat.le_refl _, ?_, ?_⟩
    · intro hmal
      rw [isMalformedDataLine, hblank] at hmal
      simp at hmal
    · rw [isWellFormedDataLine, hblank]
      simp
  · rw [if_neg (by simp [hblank])]
    rcases hxs : splitOnCh '|' (trimCh l) with _ | ⟨p0, _ | ⟨p1, _ | ⟨p2, _ | ⟨p3, _ | ⟨p4, _ | ⟨p5, rest⟩⟩⟩⟩⟩⟩
    · refine ⟨Nat.le_succ _, fun _ => rfl, ?_⟩
      rw [isWellFormedDataLine, hxs]
      simp
    · refine ⟨Nat.le_succ _, fun _ => rfl, ?_⟩
      rw [isWellFormedDataLine, hxs]
      simp
    · refine ⟨Nat.le_succ _, fun _ => rfl, ?_⟩
      rw [isWellFormedDataLine, hxs]
      simp
    · refine ⟨Nat.le_succ _, fun _ => rfl, ?_⟩
      rw [isWellFormedDataLine, hxs]
      simp
    · refine ⟨Nat.le_succ _, fun _ => rfl, ?_⟩
      rw [isWellFormedDataLine, hxs]
      simp
    · refine ⟨(idxProcessFields_state tf st _ _ _ _).2.1, ?_, ?_⟩
      · intro hmal
        rw [isMalformedDataLine, hxs] at hmal
        simp at hmal
      · rw [isWellFormedDataLine, hxs]
        simpa [hblank] using (idxProcessFields_state tf st p0 p2 p3 p4).2.2
    · refine ⟨Nat.le_succ _, fun _ => rfl, ?_⟩
      rw [isWellFormedDataLine, hxs]
      simp

theorem foldl_idxProcessLine_counts (tf : Option (List String))
    (ls : List (List Char)) (st : IdxState) (h : st.headerSkipped = true) :
    st.errors + malformedLineCount ls ≤ (ls.foldl (idxProcessLine tf) st).errors ∧
    (ls.foldl (idxProcessLine tf) st).filings.length ≤
      st.filings.length + wellFormedLineCount ls := by
  induction ls generalizing st with
  | nil => simp [malformedLineCount, wellFormedLineCount]
  | cons l ls ih =>
      have hstep := idxProcessLine_data_shape tf st l h
      have hskip := idxProcessLine_skipped tf st l h
      have ihl := ih (idxProcessLine tf st l) hskip
      constructor
      · rw [List.foldl_cons, malformedLineCount_cons]
        have h2 := ihl.1
        by_cases hmal : isMalformedDataLine l = true
        · have heq := hstep.2.1 hmal
          rw [if_pos hmal]
          omega
        · have h1 := hstep.1
          rw [if_neg hmal]
          omega
      · rw [List.foldl_cons, wellFormedLineCount_cons]
        have h1 := hstep.2.2
        have h2 := ihl.2
        by_cases hwf : isWellFormedDataLine l = true
        · rw [if_pos hwf] at h1 ⊢
          omega
        · rw [if_neg hwf] at h1 ⊢
          omega

/-- C8.  `MasterIndexParser.parse` raises its hard parse failure exactly when
no header line followed by a dashed separator line occurs in the input (so an
input with the header pair always yields a normal result: per-row problems are
never raised past the parsing boundary), and, once past the header, every
non-blank line that does not split on `|` into exactly five fields is counted
in the error counter and contributes no filing (filings only come from
five-field lines). -/
theorem C8_index_parse_hard_failure_iff_no_header :
    (∀ (tf : Option (List String)) (input : String),
        indexParse tf input = .error () ↔
          ¬ ∃ i j, i < j ∧
            isHeaderLine (trimCh ((splitOnCh '\n' (normNewlines input.data)).getD i [])) = true ∧
            isDashLine (trimCh ((splitOnCh '\n' (normNewlines input.data)).getD j [])) = true) ∧
    (∀ (tf : Option (List String)) (st : IdxState) (ls : List (List Char)),
        st.headerSkipped = true →
        st.errors + malformedLineCount ls ≤ (ls.foldl (idxProcessLine tf) st).errors ∧
        (ls.foldl (idxProcessLine tf) st).filings.length ≤
          st.filings.length + wellFormedLineCount ls) := by
  constructor
  · intro tf input
    rw [indexParse_error_iff tf input, ← headerScan_false_iff]
    constructor
    · intro h hc
      rw [h] at hc
      exact Bool.false_ne_true hc
    · intro h
      exact Bool.not_eq_true _ |>.mp (fun hc => h hc)
  · exact fun tf st ls h => foldl_idxProcessLine_counts tf ls st h

/-- Closed witness for C8: a concrete parser state past the header, folded over
one malformed (four-field) line and one well-formed line. -/
theorem C8_index_parse_hard_failure_iff_no_header_witness :
    (⟨true, true, [], 0⟩ : IdxState).headerSkipped = true ∧
    (0 + malformedLineCount ["a|b|c|d".data, "320193|Apple Inc.|10-K|2024-01-02|edgar/data/320193/0000320193-24-000123.txt".data] ≤
      ((["a|b|c|d".data, "320193|Apple Inc.|10-K|2024-01-02|edgar/data/320193/0000320193-24-000123.txt".data] :
          List (List Char)).foldl (idxProcessLine none) ⟨true, true, [], 0⟩).errors ∧
      ((["a|b|c|d".data, "320193|Apple Inc.|10-K|2024-01-02|edgar/data/320193/0000320193-24-000123.txt".data] :
          List (List Char)).foldl (idxProcessLine none) ⟨true, true, [], 0⟩).filings.length ≤
        0 + wellFormedLineCount ["a|b|c|d".data, "320193|Apple Inc.|10-K|2024-01-02|edgar/data/320193/0000320193-24-000123.txt".data]) :=
  ⟨rfl, C8_index_parse_hard_failure_iff_no_header.2 none ⟨true, true, [], 0⟩ _ rfl⟩

/-! ### Filing index page scan (`HTMLMetadataParser.find_primary_document`,
`src/extraction/parsers/html.py`) -/

/-- One `<td>` cell of the document table: its text and, when the cell holds
an `<a href=...>` tag, that link's text. -/
structure DocCell where
  text : String
  linkText : Option String
deriving DecidableEq, Repr

/-- The structured-finance exhibit type markers
(`abs_exhibit_prefixes` in the source). -/
def absExhibitKinds : List String :=
  ["EX-33", "EX-34", "EX-35", "EX-1122", "EX-1123"]

/-- `cells[3].get_text(strip=True).upper()`: the row's declared type. -/
def rowDocType (c3 : DocCell) : List Char :=
  (trimCh c3.text.data).map Char.toUpper

/-- Does a row (its fourth cell's stripped and upper-cased text) start with one
of the structured-finance exhibit markers? -/
def rowHasAbsType (cells : List DocCell) : Bool :=
  match cells.get? 3 with
  | some c3 => absExhibitKinds.any (fun p => p.data.isPrefixOf (rowDocType c3))
  | none => false

/-- The filename a row links: the `<a>` tag's stripped text when present,
otherwise the cell's stripped text. -/
def cellFileName (c : DocCell) : List Char :=
  match c.linkText with
  | some t => trimCh t.data
  | none => trimCh c.text.data

/-- Does the filename end in `.htm` or `.html` (case-insensitive)? -/
def endsWithHtml (cs : List Char) : Bool :=
  let lower := cs.map Char.toLower
  List.isSuffixOf ".htm".data lower || List.isSuffixOf ".html".data lower

/-- The row loop of `find_primary_document`: rows with fewer than four cells
are skipped; a row whose declared type starts with a structured-finance marker
breaks out with the flag set; otherwise the first row whose declared type is
an acceptable form and whose filename ends in an HTML extension is remembered
as the primary-document candidate. -/
def scanRows (targets : List String) (found : Option String) :
    List (List DocCell) → Option String × Bool
  | [] => (found, false)
  | cells :: rest =>
      match cells.get? 3 with
      | none => scanRows targets found rest
      | some c3 =>
          let docType := rowDocType c3
          if absExhibitKinds.any (fun p => p.data.isPrefixOf docType) then (found, true)
          else
            let nextFound :=
              if found.isNone then
                if targets.any (fun t => (t.data.map Char.toUpper) == docType) then
                  match cells.get? 2 with
                  | some c2 =>
                      if endsWithHtml (cellFileName c2) then some (String.mk (cellFileName c2))
                      else found
                  | none => found
                else found
              else found
            scanRows targets nextFound rest

/-- `find_primary_document` from the fetched document table's rows (header row
first): pages with no data row yield `(none, false)`; a structured-finance
flag forces `(none, true)` regardless of any candidate found; otherwise the
candidate (or `none`) with a `false` flag. -/
def findPrimaryDocument (targets : List String) (rows : List (List DocCell)) :
    Option String × Bool :=
  if rows.length < 2 then (none, false)
  else
    let r := scanRows targets none (rows.drop 1)
    if r.2 then (none, true) else (r.1, false)

theorem scanRows_abs (targets : List String) (rows : List (List DocCell))
    (found : Option String) (h : ∃ cells ∈ rows, rowHasAbsType cells = true) :
    (scanRows targets found rows).2 = true := by
  induction rows generalizing found with
  | nil => rcases h with ⟨c, hc, _⟩; cases hc
  | cons cells rest ih =>
      rcases h with ⟨c, hc, habs⟩
      rcases List.mem_cons.mp hc with rfl | hmem
      · rw [rowHasAbsType] at habs
        unfold scanRows
        rcases hg : c.get? 3 with _ | c3
        · rw [hg] at habs; exact absurd habs (by simp)
        · rw [hg] at habs
          simp only []
          rw [if_pos habs]
      · unfold scanRows
        rcases hg : cells.get? 3 with _ | c3
        · exact ih found ⟨c, hmem, habs⟩
        · simp only []
          by_cases hd : absExhibitKinds.any (fun p => p.data.isPrefixOf (rowDocType c3)) = true
          · rw [if_pos hd]
          · rw [if_neg hd]
            exact ih _ ⟨c, hmem, habs⟩

/-- C3.  Whenever the document table holds a data row whose declared type
starts with a structured-finance exhibit marker, `find_primary_document`
returns `(none, true)` — no matter what else is on the page, in particular
even when an eligible HTML row precedes or follows it (the witness checks both
orders); the second conjunct shows such an eligible row alone would have been
returned as the primary document. -/
theorem C3_structured_finance_flag_wins :
    (∀ (targets : List String) (rows : List (List DocCell)),
        (∃ cells ∈ rows.drop 1, rowHasAbsType cells = true) →
        findPrimaryDocument targets rows = (none, true)) ∧
    findPrimaryDocument ["10-K", "10-K/A"]
        [[⟨"Seq", none⟩, ⟨"Description", none⟩, ⟨"Document", none⟩, ⟨"Type", none⟩],
         [⟨"1", none⟩, ⟨"Annual report", none⟩,
          ⟨"aapl-20231230.htm", some "aapl-20231230.htm"⟩, ⟨"10-K", none⟩]]
      = (some "aapl-20231230.htm", false) := by
  constructor
  · intro targets rows h
    have hlen : ¬ rows.length < 2 := by
      rcases h with ⟨c, hc, _⟩
      have := List.length_pos.mpr (List.ne_nil_of_mem hc)
      have hd := List.length_drop 1 rows
      omega
    unfold findPrimaryDocument
    rw [if_neg hlen]
    simp only []
    rw [if_pos (scanRows_abs targets (rows.drop 1) none h)]
  · decide

/-- Closed witness for C3: a table with an eligible `10-K` HTML row and an
`EX-1122` row, in both orders, yields `(none, true)` both times. -/
theorem C3_structured_finance_flag_wins_witness :
    findPrimaryDocument ["10-K", "10-K/A"]
        [[⟨"Seq", none⟩, ⟨"Description", none⟩, ⟨"Document", none⟩, ⟨"Type", none⟩],
         [⟨"1", none⟩, ⟨"Annual report", none⟩,
          ⟨"aapl-20231230.htm", some "aapl-20231230.htm"⟩, ⟨"10-K", none⟩],
         [⟨"2", none⟩, ⟨"Servicer compliance", none⟩,
          ⟨"ex1122.htm", some "ex1122.htm"⟩, ⟨"EX-1122", none⟩]]
      = (none, true) ∧
    findPrimaryDocument ["10-K", "10-K/A"]
        [[⟨"Seq", none⟩, ⟨"Description", none⟩, ⟨"Document", none⟩, ⟨"Type", none⟩],
         [⟨"2", none⟩, ⟨"Servicer compliance", none⟩,
          ⟨"ex1122.htm", some "ex1122.htm"⟩, ⟨"EX-1122", none⟩],
         [⟨"1", none⟩, ⟨"Annual report", none⟩,
          ⟨"aapl-20231230.htm", some "aapl-20231230.htm"⟩, ⟨"10-K", none⟩]]
      = (none, true) :=
  ⟨C3_structured_finance_flag_wins.1 _ _ (by decide),
   C3_structured_finance_flag_wins.1 _ _ (by decide)⟩

/-! ### HTTP request outcomes and byte decoding
(`AbstractDownloader._make_request`, `src/extraction/downloaders/base.py`) -/

/-- Outcome of one `requests.get` call, as seen by `_make_request`: a body on
success, or a timeout, an HTTP error status (4xx/5xx, the argument), or a
connection-level failure. -/
inductive ReqResult where
  | success (body : List Nat)
  | timeout
  | httpStatus (code : Nat)
  | connectionFailure
deriving DecidableEq, Repr

/-- The custom exceptions `_make_request` raises: `NotFoundError` for 404,
`RequestTimeoutError` for timeouts, `DownloadError` for every other HTTP or
network failure. -/
inductive FetchErr where
  | notFound
  | reqTimeout
  | downloadErr
deriving DecidableEq, Repr

/-- `AbstractDownloader._make_request`: rate-limit, issue the request, and
translate failures into the custom exception taxonomy (404 ↦ `NotFoundError`,
timeout ↦ `RequestTimeoutError`, everything else ↦ `DownloadError`). -/
def makeRequest (r : ReqResult) : Except FetchErr (List Nat) :=
  match r with
  | .success body => .ok body
  | .timeout => .error .reqTimeout
  | .httpStatus code => if code = 404 then .error .notFound else .error .downloadErr
  | .connectionFailure => .error .downloadErr

/-- Is this byte a UTF-8 continuation byte (`0x80–0xBF`)? -/
def utf8Cont (b : Nat) : Bool :=
  0x80 ≤ b && b ≤ 0xBF

/-- Fuel-indexed strict UTF-8 decoder (bytes to code points), rejecting
overlong encodings, surrogates and out-of-range sequences as Python's strict
`bytes.decode('utf-8')` does.  Fuel is the remaining byte count. -/
def utf8DecodeFuel : Nat → List Nat → Option (List Nat)
  | _, [] => some []
  | 0, _ :: _ => none
  | fuel + 1, b :: bs =>
      if b < 0x80 then (utf8DecodeFuel fuel bs).map (fun r => b :: r)
      else if b < 0xC2 then none
      else if b ≤ 0xDF then
        match bs with
        | b1 :: bs₂ =>
            if utf8Cont b1 then
              (utf8DecodeFuel fuel bs₂).map (fun r => ((b - 0xC0) * 0x40 + (b1 - 0x80)) :: r)
            else none
        | [] => none
      else if b ≤ 0xEF then
        match bs with
        | b1 :: b2 :: bs₂ =>
            let lowOk :=
              if b = 0xE0 then 0xA0 ≤ b1 && b1 ≤ 0xBF
              else if b = 0xED then 0x80 ≤ b1 && b1 ≤ 0x9F
              else utf8Cont b1
            if lowOk && utf8Cont b2 then
              (utf8DecodeFuel fuel bs₂).map
                (fun r => ((b - 0xE0) * 0x1000 + (b1 - 0x80) * 0x40 + (b2 - 0x80)) :: r)
            else none
        | _ => none
      else if b ≤ 0xF4 then
        match bs with
        | b1 :: b2 :: b3 :: bs₂ =>
            let lowOk :=
              if b = 0xF0 then 0x90 ≤ b1 && b1 ≤ 0xBF
              else if b = 0xF4 then 0x80 ≤ b1 && b1 ≤ 0x8F
              else utf8Cont b1
            if lowOk && utf8Cont b2 && utf8Cont b3 then
              (utf8DecodeFuel fuel bs₂).map
                (fun r => ((b - 0xF0) * 0x40000 + (b1 - 0x80) * 0x1000 +
                  (b2 - 0x80) * 0x40 + (b3 - 0x80)) :: r)
            else none
        | _ => none
      else none

/-- `bytes.decode('utf-8')`: `none` models `UnicodeDecodeError`. -/
def utf8Decode (bs : List Nat) : Option (List Nat) :=
  utf8DecodeFuel bs.length bs

/-- Code points to a Lean string. -/
def codepointsToString (cps : List Nat) : String :=
  String.mk (cps.map Char.ofNat)

/-- The decode chain used by both index fetchers: try UTF-8, and on a
`UnicodeDecodeError` fall back to Latin-1, which maps every byte to the
equal code point and never fails (so the further decode-error branch in the
source is unreachable). -/
def pyDecodeChain (bytes : List Nat) : String :=
  match utf8Decode bytes with
  | some cps => codepointsToString cps
  | none => codepointsToString bytes

/-! ### Daily and quarterly index fetch (`IncrementalDownloader`,
`src/extraction/downloaders/incremental.py`) -/

/-- `IncrementalDownloader.download` for one date: a 404 from `_make_request`
(`NotFoundError`) is caught and returned as `none` ("absent", normal on
weekends); the body is decoded UTF-8-then-Latin-1; every other failure
(`RequestTimeoutError`, `DownloadError` — which covers 403, 500 and
connection failures) is re-raised. -/
def dailyIndexDownload (r : ReqResult) : Except FetchErr (Option String) :=
  match makeRequest r with
  | .ok body => .ok (some (pyDecodeChain body))
  | .error .notFound => .ok none
  | .error e => .error e

/-- `IncrementalDownloader.download_quarterly_index_content`: on success the
body is handed straight to `gzip.decompress` (modelled by the `inflate`
argument; `none` models `BadGzipFile`/decompression failure, which the source
turns into a raised `DownloadError`), then decoded UTF-8-then-Latin-1; a 404
yields `none`; other failures are re-raised. -/
def quarterlyIndexDownload (inflate : List Nat → Option (List Nat)) (r : ReqResult) :
    Except FetchErr (Option String) :=
  match makeRequest r with
  | .ok body =>
      match inflate body with
      | some d => .ok (some (pyDecodeChain d))
      | none => .error .downloadErr
  | .error .notFound => .ok none
  | .error e => .error e

/-- The two gzip magic bytes `\x1f\x8b`. -/
def gzipMagic : List Nat := [0x1f, 0x8b]

/-- A concrete stand-in for `gzip.decompress` used in closed statements: it
fails exactly on inputs lacking the two-byte gzip magic header — as
`gzip.decompress` does, raising `BadGzipFile` — and succeeds trivially
otherwise. -/
def inflateProbe (b : List Nat) : Option (List Nat) :=
  if b.take 2 = gzipMagic then some (b.drop 2) else none

/-! ### Incremental orchestration over dates (`PipelineService.run_incremental_update`,
`src/phase1_extraction/services/pipeline_service.py`, step 2) -/

/-- Python dict assignment `m[k] = v` on an insertion-ordered association
list: overwrite in place if present, else append. -/
def mapInsert (m : List (String × FilingRec)) (k : String) (v : FilingRec) :
    List (String × FilingRec) :=
  if m.any (fun p => p.1 == k) then m.map (fun p => if p.1 == k then (k, v) else p)
  else m ++ [(k, v)]

/-- Merge one day's parsed filings into the cross-day accession-keyed map
(`all_filings_from_indices`), skipping records with a falsy accession. -/
def mergeParsed (m : List (String × FilingRec)) (filings : List FilingRec) :
    List (String × FilingRec) :=
  filings.foldl
    (fun m f => if f.accession_number.isEmpty then m else mapInsert m f.accession_number f) m

/-- One date of the incremental loop, before combining with the running
success flag: download the daily index; a raised download/timeout error is
caught for this date only (the date's `ok` component is `false`); an absent
index (`none`) or falsy (empty) content is skipped; otherwise parse (a raised
parse error likewise only clears the flag) and merge the day's filings into
the accumulated map. -/
def incrementalDateResult (m : List (String × FilingRec)) (r : ReqResult) :
    List (String × FilingRec) × Bool :=
  match dailyIndexDownload r with
  | .error _ => (m, false)
  | .ok none => (m, true)
  | .ok (some content) =>
      if content.isEmpty then (m, true)
      else
        match indexParse none content with
        | .error _ => (m, false)
        | .ok (filings, _errs) => (mergeParsed m filings, true)

/-- Fold step of the incremental date loop: the map is updated from the
date's result, and the overall-success flag stays up only while every date
succeeds or is absent. -/
def incrementalStep (st : List (String × FilingRec) × Bool) (r : ReqResult) :
    List (String × FilingRec) × Bool :=
  ((incrementalDateResult st.1 r).1, st.2 && (incrementalDateResult st.1 r).2)

/-- The chronological fold over the dates' request outcomes, starting from an
empty map and a clean success flag. -/
def runIncrementalDates (rs : List ReqResult) : List (String × FilingRec) × Bool :=
  rs.foldl incrementalStep ([], true)

theorem foldl_incrementalStep_fst (rs : List ReqResult) (m : List (String × FilingRec))
    (b b2 : Bool) :
    (rs.foldl incrementalStep (m, b)).1 = (rs.foldl incrementalStep (m, b2)).1 := by
  induction rs generalizing m b b2 with
  | nil => rfl
  | cons r rs ih =>
      rw [List.foldl_cons, List.foldl_cons]
      exact ih (incrementalDateResult m r).1 _ _

theorem foldl_incrementalStep_false (rs : List ReqResult) (m : List (String × FilingRec)) :
    (rs.foldl incrementalStep (m, false)).2 = false := by
  induction rs generalizing m with
  | nil => rfl
  | cons r rs ih =>
      rw [List.foldl_cons]
      show (rs.foldl incrementalStep
        ((incrementalDateResult m r).1, false && (incrementalDateResult m r).2)).2 = false
      rw [Bool.false_and]
      exact ih (incrementalDateResult m r).1


/-- C4 counterexample.  The claim says a 403 response is treated as absent
(`none`, no exception); `IncrementalDownloader.download` in fact lets the
`DownloadError` that `_make_request` raises for a 403 propagate — only 404 is
caught as absent. -/
theorem C4_counterexample_403_raises :
    dailyIndexDownload (ReqResult.httpStatus 403) = .error .downloadErr ∧
    (Except.error FetchErr.downloadErr : Except FetchErr (Option String)) ≠ .ok none := by
  decide

/-- C4 (amended).  The daily-index fetch treats only a 404 as absent (`none`,
no error); a 403, like a 500, raises a download error; and in the incremental
date loop such an error for one date only clears the overall-success flag and
skips that date — the accumulated filing map is exactly the one obtained with
that date removed, so the run is not aborted. -/
theorem C4_daily_index_absent_amended :
    dailyIndexDownload (ReqResult.httpStatus 404) = .ok none ∧
    dailyIndexDownload (ReqResult.httpStatus 403) = .error .downloadErr ∧
    dailyIndexDownload (ReqResult.httpStatus 500) = .error .downloadErr ∧
    (∀ (xs ys : List ReqResult),
        runIncrementalDates (xs ++ ReqResult.httpStatus 500 :: ys)
          = ((runIncrementalDates (xs ++ ys)).1, false)) := by
  refine ⟨by decide, by decide, by decide, ?_⟩
  intro xs ys
  unfold runIncrementalDates
  rw [List.foldl_append, List.foldl_cons, List.foldl_append]
  set s := xs.foldl incrementalStep ([], true) with hs
  have hdate : incrementalDateResult s.1 (ReqResult.httpStatus 500) = (s.1, false) := by
    rfl
  have hstep : incrementalStep s (ReqResult.httpStatus 500) = (s.1, false) := by
    unfold incrementalStep
    rw [hdate]
    simp
  rw [hstep]
  have hfst := foldl_incrementalStep_fst ys s.1 false s.2
  have hsnd := foldl_incrementalStep_false ys s.1
  refine Prod.ext ?_ ?_
  · rw [hfst]
  · exact hsnd

/-- C5 counterexample.  The claim says the quarterly fetch checks the gzip
magic bytes before decompressing and, on decompression failure, falls back to
returning the raw bytes.  The source instead hands the body straight to
`gzip.decompress` and converts the failure into a raised `DownloadError`: on a
plain-text body (no magic, so `gzip.decompress` raises `BadGzipFile`) the
fetch errors rather than returning the raw content. -/
theorem C5_counterexample_no_raw_fallback :
    quarterlyIndexDownload inflateProbe (ReqResult.success [104, 105])
      = .error .downloadErr ∧
    (Except.error FetchErr.downloadErr : Except FetchErr (Option String))
      ≠ .ok (some (pyDecodeChain [104, 105])) := by
  decide

/-- C5 (amended).  The quarterly-index fetch decompresses the body in memory
with gzip directly — no magic-byte detection; if decompression fails it raises
a download error for that quarter (no raw-bytes fallback); on success the body
is decoded as UTF-8 with a Latin-1 fallback; a 404 yields absent. -/
theorem C5_quarterly_gzip_amended :
    (∀ (inflate : List Nat → Option (List Nat)) (body : List Nat),
        (inflate body = none →
          quarterlyIndexDownload inflate (ReqResult.success body) = .error .downloadErr) ∧
        (∀ d, inflate body = some d →
          quarterlyIndexDownload inflate (ReqResult.success body)
            = .ok (some (pyDecodeChain d)))) ∧
    (∀ inflate, quarterlyIndexDownload inflate (ReqResult.httpStatus 404) = .ok none) ∧
    (∀ d cps : List Nat, utf8Decode d = some cps → pyDecodeChain d = codepointsToString cps) ∧
    (∀ d : List Nat, utf8Decode d = none → pyDecodeChain d = codepointsToString d) := by
  refine ⟨?_, ?_, ?_, ?_⟩
  · intro inflate body
    constructor
    · intro h
      simp [quarterlyIndexDownload, makeRequest, h]
    · intro d h
      simp [quarterlyIndexDownload, makeRequest, h]
  · intro inflate
    rfl
  · intro d cps h
    simp [pyDecodeChain, h]
  · intro d h
    simp [pyDecodeChain, h]

/-- Closed witness for C5's amended statement at concrete bodies: a gzip body
decompresses and decodes, a plain body raises, and both decode branches are
exercised. -/
theorem C5_quarterly_gzip_amended_witness :
    inflateProbe [31, 139, 65] = some [65] ∧
    quarterlyIndexDownload inflateProbe (ReqResult.success [31, 139, 65])
      = .ok (some (pyDecodeChain [65])) ∧
    inflateProbe [104, 105] = none ∧
    quarterlyIndexDownload inflateProbe (ReqResult.success [104, 105])
      = .error .downloadErr ∧
    utf8Decode [65] = some [65] ∧
    pyDecodeChain [65] = codepointsToString [65] ∧
    utf8Decode [255] = none ∧
    pyDecodeChain [255] = codepointsToString [255] :=
  ⟨by decide,
   (C5_quarterly_gzip_amended.1 inflateProbe [31, 139, 65]).2 [65] (by decide),
   by decide,
   (C5_quarterly_gzip_amended.1 inflateProbe [104, 105]).1 (by decide),
   by decide,
   C5_quarterly_gzip_amended.2.2.1 [65] [65] (by decide),
   by decide,
   C5_quarterly_gzip_amended.2.2.2 [255] (by decide)⟩

/-! ### Bulk archive fetch (`BulkDownloader.download`,
`src/extraction/downloaders/bulk.py`) -/

/-- How a streamed response body ends: all chunks delivered (`eofOk`), a file
write failure while copying (`ioError`, i.e. `OSError`/`IOError`), or a
connection-level failure while reading the stream (`netError`, a urllib3-level
error that is neither one of the pipeline's custom exceptions nor an
`IOError`). -/
inductive StreamEnd where
  | eofOk
  | ioError
  | netError
deriving DecidableEq, Repr

/-- A streamed body: the chunks that were delivered (and hence written)
before the stream ended as `ending` says. -/
structure BodyStream where
  chunks : List (List Nat)
  ending : StreamEnd
deriving DecidableEq, Repr

/-- Outcome of the bulk `_make_request` call: headers received with a body
stream and a declared `content-length`, or a request-phase failure. -/
inductive BulkReq where
  | success (stream : BodyStream) (contentLength : Option Nat)
  | notFound
  | timeout
  | httpError
  | connectionFailure
deriving DecidableEq, Repr

/-- `BulkDownloader.download` against the file at the destination path
(`fs`, `none` when absent): request-phase failures (`NotFoundError`,
`RequestTimeoutError`, `DownloadError`) are caught before the output file is
opened, so the filesystem is untouched; on a body stream the delivered chunks
are written; an `IOError` during writing is caught by the `except IOError`
branch which unlinks the partial file (unlink modelled as succeeding); a
mid-stream connection failure falls through to the final `except Exception`
branch, which returns `False` without cleanup, leaving the partial bytes in
place; a declared content-length mismatch is only logged. -/
def bulkDownload (req : BulkReq) (fs : Option (List Nat)) : Bool × Option (List Nat) :=
  match req with
  | .success stream _declaredLen =>
      let written := stream.chunks.flatten
      match stream.ending with
      | .eofOk => (true, some written)
      | .ioError => (false, none)
      | .netError => (false, some written)
  | _ => (false, fs)

/-- C6 counterexample.  The claim says any network error makes
`BulkArchiveFetcher.download` return false and remove any partially written
output, leaving no partial file; a connection failure after one delivered
chunk returns false but leaves the partial file at the destination (only the
`IOError` branch unlinks). -/
theorem C6_counterexample_partial_file_remains :
    bulkDownload (BulkReq.success ⟨[[104, 105]], .netError⟩ (some 2)) none
      = (false, some [104, 105]) ∧
    some [104, 105] ≠ (none : Option (List Nat)) := by
  decide

/-- C6 (amended).  `BulkArchiveFetcher.download` returns true on a fully
delivered stream regardless of the declared content length (a size mismatch is
only logged); a request-phase network/timeout/HTTP error returns false with
the destination untouched (no partial file was ever created); a file-write
error returns false and removes the partial file; but a network error that
interrupts the body stream returns false leaving the partially written file in
place. -/
theorem C6_bulk_download_amended :
    (∀ (stream : BodyStream) (len : Option Nat) (fs : Option (List Nat)),
        (stream.ending = .eofOk →
          bulkDownload (.success stream len) fs = (true, some stream.chunks.flatten)) ∧
        (stream.ending = .ioError →
          bulkDownload (.success stream len) fs = (false, none)) ∧
        (stream.ending = .netError →
          bulkDownload (.success stream len) fs = (false, some stream.chunks.flatten))) ∧
    (∀ fs : Option (List Nat),
        bulkDownload .notFound fs = (false, fs) ∧
        bulkDownload .timeout fs = (false, fs) ∧
        bulkDownload .httpError fs = (false, fs) ∧
        bulkDownload .connectionFailure fs = (false, fs)) := by
  constructor
  · intro stream len fs
    refine ⟨?_, ?_, ?_⟩ <;> intro h <;> simp [bulkDownload, h]
  · intro fs
    exact ⟨rfl, rfl, rfl, rfl⟩

/-- Closed witness for C6's amended statement: a one-chunk stream with a
mismatched declared length still succeeds, and a write error cleans up. -/
theorem C6_bulk_download_amended_witness :
    (⟨[[104]], .eofOk⟩ : BodyStream).ending = .eofOk ∧
    bulkDownload (.success ⟨[[104]], .eofOk⟩ (some 999)) none = (true, some [104]) ∧
    bulkDownload (.success ⟨[[104]], .ioError⟩ none) none = (false, none) :=
  ⟨rfl,
   by simpa using (C6_bulk_download_amended.1 ⟨[[104]], .eofOk⟩ (some 999) none).1 rfl,
   (C6_bulk_download_amended.1 ⟨[[104]], .ioError⟩ none none).2.1 rfl⟩

/-! ### Rate limiter (`RateLimiter`, `src/core/rate_limiting.py`)

Clock readings and intervals are modelled as exact rationals.  Calls to
`wait()` are serialized by the instance's lock, so a run is a sequence of
calls; each call supplies the monotonic reading `now` observed on entry and
an `overshoot ≥ 0` accounting for `time.sleep` sleeping at least the requested
duration plus the slack before the post-sleep `time.monotonic()` re-read. -/

/-- The limiter's state: the configured minimum interval and
`last_request_time` (initially `0.0`). -/
structure RateLimiterState where
  minInterval : ℚ
  lastRequestTime : ℚ
deriving DecidableEq, Repr

/-- `RateLimiter.__init__`: a non-positive interval raises `ValueError`. -/
def rateLimiterInit (minIntervalSeconds : ℚ) : Except Unit RateLimiterState :=
  if minIntervalSeconds ≤ 0 then .error () else .ok ⟨minIntervalSeconds, 0⟩

/-- One serialized `wait()` call: if less than the minimum interval has
elapsed since `last_request_time`, sleep the difference and re-read the clock
(completing at `last + minInterval + overshoot`); otherwise complete
immediately at `now`.  `last_request_time` is set to the completion reading.
Returns (new state, completion time). -/
def rateLimiterWait (s : RateLimiterState) (now overshoot : ℚ) :
    RateLimiterState × ℚ :=
  if now - s.lastRequestTime < s.minInterval then
    (⟨s.minInterval, s.lastRequestTime + s.minInterval + overshoot⟩,
     s.lastRequestTime + s.minInterval + overshoot)
  else (⟨s.minInterval, now⟩, now)

/-- The completion times of a serialized sequence of `wait()` calls. -/
def runWaits (s : RateLimiterState) : List (ℚ × ℚ) → List ℚ
  | [] => []
  | (now, ov) :: rest =>
      (rateLimiterWait s now ov).2 :: runWaits (rateLimiterWait s now ov).1 rest

theorem rateLimiterWait_min_interval (s : RateLimiterState) (now ov : ℚ) :
    (rateLimiterWait s now ov).1.minInterval = s.minInterval := by
  unfold rateLimiterWait
  split <;> rfl

theorem rateLimiterWait_last_is_completion (s : RateLimiterState) (now ov : ℚ) :
    (rateLimiterWait s now ov).1.lastRequestTime = (rateLimiterWait s now ov).2 := by
  unfold rateLimiterWait
  split <;> rfl

theorem rateLimiterWait_lower (s : RateLimiterState) (now ov : ℚ) (hov : 0 ≤ ov) :
    s.lastRequestTime + s.minInterval ≤ (rateLimiterWait s now ov).2 := by
  unfold rateLimiterWait
  split
  · simp only []
    linarith
  · next h =>
      simp only []
      have := not_lt.mp h
      linarith

theorem runWaits_chain (s : RateLimiterState) (calls : List (ℚ × ℚ))
    (h : ∀ p ∈ calls, (0:ℚ) ≤ p.2) :
    List.Chain' (fun a b => a + s.minInterval ≤ b) (runWaits s calls) := by
  induction calls generalizing s with
  | nil => simp [runWaits]
  | cons p rest ih =>
      rcases p with ⟨now, ov⟩
      have hrest : ∀ q ∈ rest, (0:ℚ) ≤ q.2 := fun q hq => h q (List.mem_cons_of_mem _ hq)
      show List.Chain' _
        ((rateLimiterWait s now ov).2 :: runWaits (rateLimiterWait s now ov).1 rest)
      rw [List.chain'_cons']
      constructor
      · intro y hy
        rcases rest with _ | ⟨⟨n2, o2⟩, rest2⟩
        · simp [runWaits] at hy
        · rw [runWaits] at hy
          simp only [List.head?_cons, Option.mem_def, Option.some.injEq] at hy
          subst hy
          have hlow := rateLimiterWait_lower (rateLimiterWait s now ov).1 n2 o2
            (hrest (n2, o2) (List.mem_cons_self _ _))
          rw [rateLimiterWait_min_interval, rateLimiterWait_last_is_completion] at hlow
          exact hlow
      · have := ih (rateLimiterWait s now ov).1 hrest
        rw [rateLimiterWait_min_interval] at this
        exact this

theorem chain_gap_total (i : ℚ) (l : List ℚ) :
    ∀ a : ℚ, List.Chain' (fun x y => x + i ≤ y) (a :: l) →
      a + (l.length : ℚ) * i ≤ l.getLastD a := by
  induction l with
  | nil =>
      intro a _
      simp
  | cons b l2 ih =>
      intro a h
      rw [List.chain'_cons] at h
      have htail := ih b h.2
      rw [List.getLastD_cons]
      have hlen : ((b :: l2).length : ℚ) = (l2.length : ℚ) + 1 := by
        push_cast [List.length_cons]
        ring
      rw [hlen]
      have h1 := h.1
      linarith

/-- C9.  Construction of the rate limiter fails exactly on a non-positive
interval; every serialized sequence of `wait()` calls (`time.sleep` may
overshoot by any non-negative amount, and arrival clock readings are
arbitrary) produces completion times in which each call completes at least
`minInterval` after the previous call's completion, so the completions of `N`
calls, `c :: cs` with `cs.length = N - 1`, span at least `(N-1) * minInterval`
of monotonic time. -/
theorem C9_rate_limiter_pacing :
    (∀ i : ℚ, i ≤ 0 → rateLimiterInit i = .error ()) ∧
    (∀ i : ℚ, 0 < i → rateLimiterInit i = .ok ⟨i, 0⟩) ∧
    (∀ (s : RateLimiterState) (calls : List (ℚ × ℚ)),
        (∀ p ∈ calls, (0:ℚ) ≤ p.2) →
        List.Chain' (fun a b => a + s.minInterval ≤ b) (runWaits s calls)) ∧
    (∀ (s : RateLimiterState) (calls : List (ℚ × ℚ)) (c : ℚ) (cs : List ℚ),
        (∀ p ∈ calls, (0:ℚ) ≤ p.2) →
        runWaits s calls = c :: cs →
        c + (cs.length : ℚ) * s.minInterval ≤ cs.getLastD c) := by
  refine ⟨?_, ?_, runWaits_chain, ?_⟩
  · intro i hi
    simp [rateLimiterInit, hi]
  · intro i hi
    simp [rateLimiterInit, not_le.mpr hi]
  · intro s calls c cs h hrw
    have hchain := runWaits_chain s calls h
    rw [hrw] at hchain
    exact chain_gap_total s.minInterval cs c hchain

/-- Closed witness for C9: interval 1, three calls arriving at monotonic
readings 0, 0 and 5 with exact sleeps; the completions are `[1, 2, 5]`, they
are spaced at least 1 apart, and the last is at least `2 * 1` after the
first. -/
theorem C9_rate_limiter_pacing_witness :
    rateLimiterInit (-1) = .error () ∧
    rateLimiterInit 1 = .ok ⟨1, 0⟩ ∧
    List.Chain' (fun a b => a + (⟨1, 0⟩ : RateLimiterState).minInterval ≤ b)
      (runWaits ⟨1, 0⟩ [(0, 0), (0, 0), (5, 0)]) ∧
    runWaits ⟨1, 0⟩ [(0, 0), (0, 0), (5, 0)] = [1, 2, 5] ∧
    (1:ℚ) + (([2, 5] : List ℚ).length : ℚ) * (⟨1, 0⟩ : RateLimiterState).minInterval
      ≤ ([2, 5] : List ℚ).getLastD 1 := by
  have hrw : runWaits ⟨1, 0⟩ [(0, 0), (0, 0), (5, 0)] = [1, 2, 5] := by
    norm_num [runWaits, rateLimiterWait]
  refine ⟨C9_rate_limiter_pacing.1 (-1) (by norm_num),
    C9_rate_limiter_pacing.2.1 1 (by norm_num),
    C9_rate_limiter_pacing.2.2.1 ⟨1, 0⟩ [(0, 0), (0, 0), (5, 0)] (by norm_num),
    hrw,
    C9_rate_limiter_pacing.2.2.2 ⟨1, 0⟩ [(0, 0), (0, 0), (5, 0)] 1 [2, 5] (by norm_num) hrw⟩

/-! ### Document fetch (`DocumentDownloader`,
`src/phase1_extraction/downloaders/document.py`) -/

/-- Python `int(s)` on a decimal string: optional surrounding whitespace,
optional sign, then digits (PEP-515 underscore grouping is not modelled; CIK
inputs are plain digit strings).  `none` models `ValueError`. -/
def pyInt (s : String) : Option Int :=
  match trimCh s.data with
  | [] => none
  | '+' :: ds =>
      if !ds.isEmpty && ds.all Char.isDigit then some (digitsToNat ds) else none
  | '-' :: ds =>
      if !ds.isEmpty && ds.all Char.isDigit then some (-(digitsToNat ds : Int)) else none
  | ds => if ds.all Char.isDigit then some ((digitsToNat ds : Int)) else none

/-- `accession_number.replace('-', '')`. -/
def stripDashes (s : String) : List Char :=
  s.data.filter (fun c => !(c == '-'))

/-- The pieces of the per-document URL
`{base}/{cik-no-leading-zeros}/{accession-no-dashes}/{filename}`. -/
structure DocumentUrl where
  cikNoZeros : Int
  accessionNoDashes : List Char
  filename : String
deriving DecidableEq, Repr

/-- `DocumentDownloader._build_document_url`: `none` when the CIK, accession
number or filename is falsy (empty) or the CIK does not parse as an integer
(`str(int(cik))` strips its leading zeros). -/
def buildDocumentUrl (cik accessionNumber filename : String) : Option DocumentUrl :=
  if cik.isEmpty || accessionNumber.isEmpty || filename.isEmpty then none
  else
    match pyInt cik with
    | none => none
    | some n => some ⟨n, stripDashes accessionNumber, filename⟩

/-- `DocumentDownloader.download` against the file at the output path (`fs`,
`none` when absent): no URL ⇒ `False` before any request; a request failure
(404 / timeout / other download error) ⇒ `False` with nothing written; an
empty body ⇒ `False` with nothing written; otherwise the body is gunzipped
only when it starts with the gzip magic bytes, falling back to the raw bytes
if decompression fails (`inflate = none`), and the final content is written
only when non-empty (parent-directory creation is not modelled). -/
def docDownload (inflate : List Nat → Option (List Nat))
    (cik accessionNumber filename : String) (req : ReqResult)
    (fs : Option (List Nat)) : Bool × Option (List Nat) :=
  match buildDocumentUrl cik accessionNumber filename with
  | none => (false, fs)
  | some _url =>
      match makeRequest req with
      | .error _ => (false, fs)
      | .ok raw =>
          if raw.isEmpty then (false, fs)
          else
            let finalContent :=
              if raw.take 2 = gzipMagic then (inflate raw).getD raw else raw
            if finalContent.isEmpty then (false, fs)
            else (true, some finalContent)

/-- C10 (implicit).  `DocumentFetcher.download` returns false and writes
nothing when the fetched body is empty; the URL fails to build exactly when
the CIK, accession number or filename is missing or the CIK is non-numeric,
and in that case the download returns false with the filesystem untouched for
every request outcome (no request is consumed); and in general the output
file is either left untouched or the download succeeds writing a non-empty
final content. -/
theorem C10_document_download_guards :
    (∀ (inflate : List Nat → Option (List Nat)) (cik acc fn : String)
        (fs : Option (List Nat)),
        docDownload inflate cik acc fn (ReqResult.success []) fs = (false, fs)) ∧
    (∀ cik acc fn : String,
        buildDocumentUrl cik acc fn = none ↔
          cik.isEmpty = true ∨ acc.isEmpty = true ∨ fn.isEmpty = true ∨ pyInt cik = none) ∧
    (∀ (inflate : List Nat → Option (List Nat)) (cik acc fn : String)
        (req : ReqResult) (fs : Option (List Nat)),
        buildDocumentUrl cik acc fn = none →
        docDownload inflate cik acc fn req fs = (false, fs)) ∧
    (∀ (inflate : List Nat → Option (List Nat)) (cik acc fn : String)
        (req : ReqResult) (fs : Option (List Nat)),
        (docDownload inflate cik acc fn req fs).2 = fs ∨
        ∃ content, content ≠ [] ∧
          docDownload inflate cik acc fn req fs = (true, some content)) := by
  refine ⟨?_, ?_, ?_, ?_⟩
  · intro inflate cik acc fn fs
    rcases hb : buildDocumentUrl cik acc fn with _ | u
    · simp [docDownload, hb]
    · simp [docDownload, hb, makeRequest]
  · intro cik acc fn
    unfold buildDocumentUrl
    by_cases hb : (cik.isEmpty || acc.isEmpty || fn.isEmpty) = true
    · rw [if_pos hb]
      refine ⟨fun _ => ?_, fun _ => rfl⟩
      rcases Bool.or_eq_true _ _ |>.mp hb with h2 | h
      · rcases Bool.or_eq_true _ _ |>.mp h2 with h | h
        · exact Or.inl h
        · exact Or.inr (Or.inl h)
      · exact Or.inr (Or.inr (Or.inl h))
    · rw [if_neg hb]
      simp only [Bool.or_eq_true, not_or, Bool.not_eq_true] at hb
      rcases hp : pyInt cik with _ | n
      · simp [hp]
      · simp [hp, hb.1.1, hb.1.2, hb.2]
  · intro inflate cik acc fn req fs hb
    simp [docDownload, hb]
  · intro inflate cik acc fn req fs
    rcases hb : buildDocumentUrl cik acc fn with _ | u
    · left
      simp [docDownload, hb]
    · rcases hr : makeRequest req with e | raw
      · left
        simp [docDownload, hb, hr]
      · by_cases hre : raw.isEmpty = true
        · left
          simp [docDownload, hb, hr, hre]
        · by_cases hm : raw.take 2 = gzipMagic
          · by_cases hfe : ((inflate raw).getD raw).isEmpty = true
            · left
              simp [docDownload, hb, hr, hre, hm, hfe]
            · right
              refine ⟨(inflate raw).getD raw, ?_, ?_⟩
              · intro hc
                rw [hc] at hfe
                exact hfe rfl
              · simp [docDownload, hb, hr, hre, hm, hfe]
          · right
            refine ⟨raw, ?_, ?_⟩
            · intro hc
              rw [hc] at hre
              exact hre rfl
            · simp [docDownload, hb, hr, hre, hm]

/-- Closed witness for C10 at concrete inputs: an empty CIK blocks the URL,
the download then fails for any request outcome without touching the file,
and a non-empty CIK with an empty body also fails without a write. -/
theorem C10_document_download_guards_witness :
    buildDocumentUrl "" "0000320193-24-000123" "aapl.htm" = none ∧
    docDownload (fun _ => none) "" "0000320193-24-000123" "aapl.htm"
        (ReqResult.success [104]) none = (false, none) ∧
    docDownload (fun _ => none) "0000320193" "0000320193-24-000123" "aapl.htm"
        (ReqResult.success []) none = (false, none) :=
  ⟨by decide,
   C10_document_download_guards.2.2.1 (fun _ => none) "" "0000320193-24-000123" "aapl.htm"
     (ReqResult.success [104]) none (by decide),
   C10_document_download_guards.1 (fun _ => none) "0000320193" "0000320193-24-000123"
     "aapl.htm" none⟩

/-! ### Bulk per-entity metadata parsing (`JSONParser.parse`,
`src/extraction/parsers/json.py`, filings section) -/

/-- The four parallel filing arrays under `filings.recent` (entries are
strings; an empty string stands for a falsy/missing value). -/
structure FilingArrays where
  form : List String
  filingDate : List String
  accessionNumber : List String
  primaryDocument : List String
deriving DecidableEq, Repr

/-- Case-insensitive character comparison (`re.IGNORECASE`). -/
def eqIgnoreCase (c d : Char) : Bool :=
  c.toLower == d.toLower

/-- Match a literal pattern case-insensitively at the current position,
returning the remainder. -/
def matchLit : List Char → List Char → Option (List Char)
  | [], rest => some rest
  | _ :: _, [] => none
  | p :: ps, c :: rest => if eqIgnoreCase p c then matchLit ps rest else none

/-- `re.match(r'CIK(\d{10})\.json', name, re.IGNORECASE)`: anchored at the
start of the filename, trailing characters allowed; returns the captured
10-digit CIK. -/
def cikFromFilename (name : String) : Option String :=
  match matchLit "CIK".data name.data with
  | none => none
  | some rest =>
      match splitDigits 10 rest with
      | none => none
      | some (ds, rest2) =>
          match matchLit ".json".data rest2 with
          | some _ => some (String.mk ds)
          | none => none

/-- The four arrays in the order of `required_keys`. -/
def arraysFields (a : FilingArrays) : List (List String) :=
  [a.form, a.filingDate, a.accessionNumber, a.primaryDocument]

/-- `min_len`: the minimum length over the non-empty (truthy) arrays —
`min(len(lst) for lst in valid_lists)` with
`valid_lists = [recent[key] for key in required_keys if recent[key]]` —
and `0` when every array is empty. -/
def minNonEmptyLen (a : FilingArrays) : Nat :=
  match (arraysFields a).filter (fun l => !l.isEmpty) with
  | [] => 0
  | x :: xs => (xs.map List.length).foldl Nat.min x.length

/-- The shortest of the four arrays, the walk bound the specification
describes. -/
def minAllLen (a : FilingArrays) : Nat :=
  ((a.form.length.min a.filingDate.length).min a.accessionNumber.length).min
    a.primaryDocument.length

/-- One index of the filing walk: `none` when any of the four values is out
of range (`IndexError`), falsy (empty), or the date fails to parse — all
counted, soft failures in the source. -/
def filingAt (cik : String) (a : FilingArrays) (i : Nat) : Option FilingRec :=
  match a.accessionNumber.get? i, a.primaryDocument.get? i,
      a.form.get? i, a.filingDate.get? i with
  | some accNum, some fn, some form, some dateStr =>
      if accNum.isEmpty || fn.isEmpty || form.isEmpty || dateStr.isEmpty then none
      else
        match parseDateIso dateStr.data with
        | some d => some ⟨cik, form, d, accNum, fn⟩
        | none => none
  | _, _, _, _ => none

/-- Fold step of the filing walk: append the record, or count the error. -/
def walkStep (cik : String) (a : FilingArrays) (st : List FilingRec × Nat) (i : Nat) :
    List FilingRec × Nat :=
  match filingAt cik a i with
  | some f => (st.1 ++ [f], st.2)
  | none => (st.1, st.2 + 1)

/-- The filing walk over indices `0 .. bound - 1`, returning the extracted
records and the per-record error count. -/
def walkFilings (cik : String) (a : FilingArrays) (bound : Nat) : List FilingRec × Nat :=
  (List.range bound).foldl (walkStep cik a) ([], 0)

/-- `JSONParser.parse`, filings portion: a filename from which the 10-digit
CIK cannot be extracted raises `ParsingError` for the whole file
(`Except.error ()`); `recent = none` models absent or non-list filing keys
(no filings, no errors); otherwise the four arrays are walked up to
`minNonEmptyLen`. -/
def jsonParse (filename : String) (recent : Option FilingArrays) :
    Except Unit (List FilingRec × Nat) :=
  match cikFromFilename filename with
  | none => .error ()
  | some cik =>
      match recent with
      | none => .ok ([], 0)
      | some a => .ok (walkFilings cik a (minNonEmptyLen a))

/-- The walk as the claim words it — bounded by the shortest of the four
arrays — for comparison with the source's behaviour. -/
def jsonParseClaimedWalk (filename : String) (recent : Option FilingArrays) :
    Except Unit (List FilingRec × Nat) :=
  match cikFromFilename filename with
  | none => .error ()
  | some cik =>
      match recent with
      | none => .ok ([], 0)
      | some a => .ok (walkFilings cik a (minAllLen a))

theorem walkStep_count (cik : String) (a : FilingArrays) (st : List FilingRec × Nat)
    (i : Nat) : (walkStep cik a st i).1.length + (walkStep cik a st i).2
      = st.1.length + st.2 + 1 := by
  unfold walkStep
  rcases filingAt cik a i with _ | f
  · simp only []
    omega
  · simp only [List.length_append, List.length_cons, List.length_nil]
    omega

theorem foldl_walkStep_count (cik : String) (a : FilingArrays) (l : List Nat)
    (st : List FilingRec × Nat) :
    (l.foldl (walkStep cik a) st).1.length + (l.foldl (walkStep cik a) st).2
      = st.1.length + st.2 + l.length := by
  induction l generalizing st with
  | nil => simp
  | cons i l ih =>
      rw [List.foldl_cons]
      rw [ih (walkStep cik a st i)]
      have := walkStep_count cik a st i
      simp only [List.length_cons]
      omega

/-- C7 counterexample.  On a file whose `form` array is empty while the other
three arrays hold one well-formed entry each, the claim's walk bound (the
shortest array's length) is `0`, giving no records and no counted errors —
but the source bounds the walk by the shortest *non-empty* array, walks one
index, hits the `IndexError` on the empty array, and reports one counted
error. -/
theorem C7_counterexample_empty_form_array :
    jsonParse "CIK0000320193.json"
        (some ⟨[], ["2024-01-02"], ["0000320193-24-000123"], ["doc.htm"]⟩)
      = .ok ([], 1) ∧
    jsonParseClaimedWalk "CIK0000320193.json"
        (some ⟨[], ["2024-01-02"], ["0000320193-24-000123"], ["doc.htm"]⟩)
      = .ok ([], 0) ∧
    (Except.ok (([], 1) : List FilingRec × Nat) : Except Unit (List FilingRec × Nat))
      ≠ .ok ([], 0) := by
  decide

/-- C7 (amended).  A filename without an extractable 10-digit CIK is a hard
failure for the whole file; otherwise parsing never aborts: the four parallel
arrays are walked pairwise up to the shortest *non-empty* array's length
(which is the claim's shortest-array bound whenever no array is empty), and
every walked index yields either a record or a counted soft error (missing
value, unparseable date, or an index beyond a shorter array's end). -/
theorem C7_submission_parser_walk_amended :
    (∀ (filename : String) (recent : Option FilingArrays),
        cikFromFilename filename = none → jsonParse filename recent = .error ()) ∧
    (∀ (filename cik : String) (a : FilingArrays),
        cikFromFilename filename = some cik →
        jsonParse filename (some a) = .ok (walkFilings cik a (minNonEmptyLen a))) ∧
    (∀ (cik : String) (a : FilingArrays) (bound : Nat),
        (walkFilings cik a bound).1.length + (walkFilings cik a bound).2 = bound) ∧
    (∀ a : FilingArrays,
        a.form ≠ [] → a.filingDate ≠ [] → a.accessionNumber ≠ [] →
        a.primaryDocument ≠ [] → minNonEmptyLen a = minAllLen a) := by
  refine ⟨?_, ?_, ?_, ?_⟩
  · intro filename recent h
    simp [jsonParse, h]
  · intro filename cik a h
    simp [jsonParse, h]
  · intro cik a bound
    have := foldl_walkStep_count cik a (List.range bound) ([], 0)
    simpa [walkFilings] using this
  · intro a h1 h2 h3 h4
    have hf1 : a.form.isEmpty = false := by
      rcases hc : a.form with _ | ⟨x, xs⟩
      · exact absurd hc h1
      · rfl
    have hf2 : a.filingDate.isEmpty = false := by
      rcases hc : a.filingDate with _ | ⟨x, xs⟩
      · exact absurd hc h2
      · rfl
    have hf3 : a.accessionNumber.isEmpty = false := by
      rcases hc : a.accessionNumber with _ | ⟨x, xs⟩
      · exact absurd hc h3
      · rfl
    have hf4 : a.primaryDocument.isEmpty = false := by
      rcases hc : a.primaryDocument with _ | ⟨x, xs⟩
      · exact absurd hc h4
      · rfl
    unfold minNonEmptyLen minAllLen arraysFields
    simp only [List.filter_cons, List.filter_nil, hf1, hf2, hf3, hf4, Bool.not_false,
      if_pos, List.map_cons, List.map_nil, List.foldl_cons, List.foldl_nil]

/-- Closed witness for C7's amended statement at concrete inputs. -/
theorem C7_submission_parser_walk_amended_witness :
    cikFromFilename "notacik.json" = none ∧
    jsonParse "notacik.json" none = .error () ∧
    cikFromFilename "CIK0000320193.json" = some "0000320193" ∧
    jsonParse "CIK0000320193.json"
        (some ⟨["10-K"], ["2024-01-02"], ["0000320193-24-000123"], ["doc.htm"]⟩)
      = .ok (walkFilings "0000320193"
          ⟨["10-K"], ["2024-01-02"], ["0000320193-24-000123"], ["doc.htm"]⟩
          (minNonEmptyLen
            ⟨["10-K"], ["2024-01-02"], ["0000320193-24-000123"], ["doc.htm"]⟩)) ∧
    minNonEmptyLen ⟨["10-K"], ["2024-01-02"], ["0000320193-24-000123"], ["doc.htm"]⟩
      = minAllLen ⟨["10-K"], ["2024-01-02"], ["0000320193-24-000123"], ["doc.htm"]⟩ :=
  ⟨by decide,
   C7_submission_parser_walk_amended.1 "notacik.json" none (by decide),
   by decide,
   C7_submission_parser_walk_amended.2.1 "CIK0000320193.json" "0000320193"
     ⟨["10-K"], ["2024-01-02"], ["0000320193-24-000123"], ["doc.htm"]⟩ (by decide),
   C7_submission_parser_walk_amended.2.2.2
     ⟨["10-K"], ["2024-01-02"], ["0000320193-24-000123"], ["doc.htm"]⟩
     (by decide) (by decide) (by decide) (by decide)⟩

end FinLens
